import Mathlib

/-!
# smallsh: a shallow embedding of `main.c`

The shell is one C file.  Its process-wide globals (`forgroundOnly`,
`controlCZUsed`, `childBGPid`, `childFGPid`) become the fields of `Shell`,
together with the text the process has written and the system calls it has
issued, both kept in order.  Everything the kernel decides (what `fork`
returns, what a `waitpid` stores, which children are finished) is an explicit
input of type `World`.  C strings are `String`s; a `NULL` pointer is `none`.
-/

namespace Smallsh

/-! ## Status words of `<sys/wait.h>` (glibc encoding) -/

/-- `WTERMSIG(status)` is `status & 0x7f`. -/
def WTERMSIG (status : Nat) : Nat := status % 128

/-- `WIFEXITED(status)` is `WTERMSIG(status) == 0`. -/
def WIFEXITED (status : Nat) : Bool := WTERMSIG status == 0

/-- `WEXITSTATUS(status)` is `(status & 0xff00) >> 8`. -/
def WEXITSTATUS (status : Nat) : Nat := (status / 256) % 256

/-- The status word of a child that called `exit(code)`. -/
def exitedWord (code : Nat) : Nat := (code % 256) * 256

/-- The status word of a child killed by signal `sig` (no core dump). -/
def signaledWord (sig : Nat) : Nat := sig % 128

/-- `WNOHANG` of `<sys/wait.h>`. -/
def WNOHANG : Int := 1

/-! ## Process state -/

/-- System calls the model records. -/
inductive Sys
  | fork
  | waitpid (pid : Int) (options : Int)
  | kill (pid : Int) (sig : Int)
  | chdir (path : Option String)
  | close (fd : Int)
  deriving DecidableEq, Repr

/-- The four globals of `main.c`, the text written so far (`out` for stdout,
`err` for `perror`), and the system calls issued so far, oldest first. -/
structure Shell where
  forgroundOnly : Int
  controlCZUsed : Int
  childBGPid : Int
  childFGPid : Int
  out : List String
  err : List String
  calls : List Sys
  deriving DecidableEq, Repr

/-- Globals as initialised at lines 24-27. -/
def Shell.init : Shell :=
  { forgroundOnly := 0, controlCZUsed := 0, childBGPid := 0, childFGPid := 0,
    out := [], err := [], calls := [] }

/-- What the child of one `fork` meets: the results of its `open` and `dup2`
calls and whether `execvp` fails. -/
structure ChildEnv where
  openSource : Int
  dupSource : Int
  openTarget : Int
  dupTarget : Int
  execFails : Bool
  deriving DecidableEq, Repr

/-- Everything outside the shell process that one prompt cycle depends on.
`childStatus0`, `sourceFD0` and `targetFD0` are the indeterminate initial
contents of the uninitialised locals of `runCommand`.  `waitChild` is the word
that `waitpid(spawnpid, &childStatus, _)` stores, `none` when the call stores
nothing (the child is still running under `WNOHANG`, or the call fails).
`zombies` are the finished children that successive `waitpid(-1, ..., WNOHANG)`
calls hand out, with their status words; once the list is used up the call
returns a value that is not positive. -/
structure World where
  pid : Int
  home : Option String
  chdirResult : Int
  spawnpid : Int
  childStatus0 : Nat
  sourceFD0 : Int
  targetFD0 : Int
  waitChild : Option Nat
  zombies : List (Int × Nat)
  childEnv : ChildEnv
  deriving DecidableEq, Repr

/-! ## Signal handler (lines 38-60) -/

/-- `write(STDOUT_FILENO, message, n)`: the first `n` bytes of `message`. -/
def write (message : String) (n : Nat) : String := String.mk (message.data.take n)

/-- `handle_SIGTSTP`. -/
def handle_SIGTSTP (s : Shell) : Shell :=
  let s1 : Shell :=
    if s.forgroundOnly ≠ 0 then
      { s with out := s.out ++ [write "\nExiting foreground-only mode\n" 30],
               forgroundOnly := 0 }
    else
      { s with out := s.out ++ [write "\nEntering foreground-only mode (& is now ignored)\n" 50],
               forgroundOnly := 1 }
  { s1 with controlCZUsed := 1 }

/-! ## `runCommand` (lines 97-273) -/

/-- How the child branch of `runCommand` ends: it either replaces its image
(`execvp(newargv[0], newargv)` with the given bindings of descriptors 0 and 1)
or calls `exit(code)` after `perror(msg)`. -/
inductive ChildEnd
  | exec (file : Option String) (argv : List (Option String))
      (stdin : Option Int) (stdout : Option Int)
  | exit (code : Int) (msg : String)
  deriving DecidableEq, Repr

/-- The array initialiser of line 105: `{command[0], command[1], command[2]}`.
`command` lists the filled slots of the caller's array; the slots after them
hold `NULL`. -/
def newargv (command : List String) : List (Option String) :=
  [command.get? 0, command.get? 1, command.get? 2]

/-- The `case 0:` branch (lines 123-192). -/
def runCommandChild (command : List String) (inputFile outputFile : Option String)
    (env : ChildEnv) : ChildEnd :=
  let argv := newargv command
  let afterInput : Except ChildEnd (Option Int) :=
    match inputFile with
    | some _ =>
      if env.openSource = -1 then .error (.exit 1 "source open()")
      else if env.dupSource = -1 then .error (.exit 1 "source dup2()")
      else .ok (some env.openSource)
    | none => .ok none
  match afterInput with
  | .error e => e
  | .ok stdin =>
    let afterOutput : Except ChildEnd (Option Int) :=
      match outputFile with
      | some _ =>
        if env.openTarget = -1 then .error (.exit 1 "target open()")
        else if env.dupTarget = -1 then .error (.exit 1 "target dup2()")
        else .ok (some env.openTarget)
      | none => .ok none
    match afterOutput with
    | .error e => e
    | .ok stdout =>
      if env.execFails then .exit 1 "Error"
      else .exec (argv.headD none) argv stdin stdout

/-- Lines 197-218: the scheduling decision and the wait on the new child.
Returns the state and the contents of `childStatus` afterwards. -/
def launch (s : Shell) (w : World) (runBG : Int) : Shell × Nat :=
  if runBG ≠ 0 ∧ s.forgroundOnly = 0 then
    ({ s with childFGPid := 0, childBGPid := w.spawnpid,
              calls := s.calls ++ [Sys.waitpid w.spawnpid WNOHANG],
              out := s.out ++ ["background pid is " ++ toString w.spawnpid ++ "\n"] },
     w.waitChild.getD w.childStatus0)
  else
    ({ s with childFGPid := w.spawnpid,
              calls := s.calls ++ [Sys.waitpid w.spawnpid 0] },
     w.waitChild.getD w.childStatus0)

/-- Lines 220-233: `exitStatus` from `childStatus`. -/
def interpret (s : Shell) (childStatus : Nat) : Shell × Int :=
  if WIFEXITED childStatus then
    (s, (WEXITSTATUS childStatus : Int))
  else
    ({ s with out := s.out ++ ["terminated by signal " ++ toString (WTERMSIG childStatus) ++ "\n"] },
     (WTERMSIG childStatus : Int))

/-- The body of the loop of lines 240-259 for one reaped child. -/
def announce (s : Shell) (checkChildinBG : Int) (childStatus : Nat) : Shell :=
  let s1 : Shell :=
    { s with out := s.out ++ ["background pid " ++ toString checkChildinBG ++ " is done: "] }
  let s2 : Shell :=
    if WIFEXITED childStatus then
      { s1 with out := s1.out ++ ["exit status " ++ toString (WEXITSTATUS childStatus) ++ "\n"] }
    else
      { s1 with out := s1.out ++ ["terminated by signal " ++ toString (WTERMSIG childStatus) ++ "\n"] }
  { s2 with childBGPid := 0 }

/-- Lines 239-259: `waitpid(-1, &childStatus, WNOHANG)` repeated while it
returns a positive pid.  Returns the state and the children left unreaped. -/
def sweep : List (Int × Nat) → Shell → Shell × List (Int × Nat)
  | [], s => ({ s with calls := s.calls ++ [Sys.waitpid (-1) WNOHANG] }, [])
  | (p, st) :: rest, s =>
    let s1 : Shell := { s with calls := s.calls ++ [Sys.waitpid (-1) WNOHANG] }
    if p > 0 then sweep rest (announce s1 p st) else (s1, (p, st) :: rest)

/-- Lines 262-269. -/
def closeFiles (s : Shell) (w : World) : Shell :=
  let s1 : Shell :=
    if w.sourceFD0 ≠ 0 then { s with calls := s.calls ++ [Sys.close w.sourceFD0] } else s
  if w.targetFD0 ≠ 0 then { s1 with calls := s1.calls ++ [Sys.close w.targetFD0] } else s1

/-- Line 236. -/
def resetFG (s : Shell) : Shell := { s with childFGPid := 0 }

/-- Lines 220-270 and the `return` of line 272: what the parent does once its
wait on the new child has returned, `childStatus` being what that wait left. -/
def afterWait (s1 : Shell) (w : World) (childStatus : Nat) : Shell × Int :=
  let r := interpret s1 childStatus
  let r4 := sweep w.zombies (resetFG r.1)
  (closeFiles r4.1 w, r.2)

/-- The `default:` branch (lines 195-270) and the `return` of line 272. -/
def runCommandParent (s : Shell) (w : World) (runBG : Int) : Shell × Int :=
  let l := launch s w runBG
  afterWait l.1 w l.2

/-- How one call of `runCommand` ends, seen from the process that called
`fork`: the shell dies (`exit(1)` after a failed `fork`), or the caller is the
child, or the caller is the parent and the function returns `exitStatus`. -/
inductive Dispatch
  | forkFailed (s : Shell)
  | child (s : Shell) (e : ChildEnd)
  | parent (s : Shell) (exitStatus : Int)
  deriving DecidableEq, Repr

/-- `runCommand`: `fork` at line 111, then the `switch` on its result. -/
def runCommand (s : Shell) (w : World) (command : List String)
    (inputFile outputFile : Option String) (runBG : Int) : Dispatch :=
  let s0 : Shell := { s with calls := s.calls ++ [Sys.fork] }
  if w.spawnpid = -1 then
    .forkFailed { s0 with err := s0.err ++ ["fork()\n"] }
  else if w.spawnpid = 0 then
    .child s0 (runCommandChild command inputFile outputFile w.childEnv)
  else
    let r := runCommandParent s0 w runBG
    .parent r.1 r.2

/-! ## `parseInput` (lines 282-385) -/

/-- Lines 295-301: every newline becomes a terminator, so the C string ends at
the first one. -/
def stripNewline (input : String) : String :=
  String.mk (input.data.takeWhile (fun c => c ≠ '\n'))

/-- The tokens `strtok_r(_, " ", _)` hands out: maximal runs of characters
other than the space.  `cur` is the run being read. -/
def strtokAux : List Char → List Char → List String
  | [], cur => if cur = [] then [] else [String.mk cur]
  | c :: cs, cur =>
    if c = ' ' then
      (if cur = [] then strtokAux cs [] else String.mk cur :: strtokAux cs [])
    else strtokAux cs (cur ++ [c])

/-- All tokens of a C string, in order. -/
def strtok (input : String) : List String := strtokAux input.data []

/-- `strstr(s, "$$") != NULL`. -/
def strstrDollars : List Char → Bool
  | a :: b :: cs => if a = '$' ∧ b = '$' then true else strstrDollars (b :: cs)
  | _ => false

/-- Lines 349-365 (and 458-474): when the string contains `$$`, its first
`strlen - 2` characters (`strncpy` into `tempName`) followed by the pid printed
with `%i` (`sprintf`, `strcat`), copied back over the string.  `tempName` has no
room for a terminator and the copies run past both heap blocks; the model
follows the bytes written, the byte after the `strncpy` copy being the zero
that `calloc` leaves in a fresh chunk. -/
def expandPid (pid : Int) (name : String) : String :=
  if strstrDollars name.data then
    String.mk (name.data.take (name.data.length - 2) ++ (toString pid).data)
  else name

/-- The locals of `parseInput` that reach `runCommand`.  `commandArray` lists
the filled slots of the 512-slot array. -/
structure Parsed where
  commandArray : List String
  inputFile : Option String
  outputFile : Option String
  runBG : Int
  deriving DecidableEq, Repr

/-- The loop of lines 318-373 over the tokens after the first.  `none` when
the code dereferences `NULL` (no token after `<` or `>`) or stores past slot
511. -/
def parseLoop (pid : Int) : List String → Parsed → Option Parsed
  | [], p => some p
  | [token], p =>
    if token = "<" then none
    else if token = ">" then none
    else if token = "&" then some { p with runBG := 1 }
    else if p.commandArray.length < 512 then
      some { p with commandArray := p.commandArray ++ [expandPid pid token] }
    else none
  | token :: next :: rest, p =>
    if token = "<" then parseLoop pid rest { p with inputFile := some next }
    else if token = ">" then parseLoop pid rest { p with outputFile := some next }
    else if token = "&" then parseLoop pid (next :: rest) { p with runBG := 1 }
    else if p.commandArray.length < 512 then
      parseLoop pid (next :: rest)
        { p with commandArray := p.commandArray ++ [expandPid pid token] }
    else none

/-- Lines 295-373: the line as `runCommand` receives it.  `none` when there is
no first token (`strlen(NULL)`) or the loop fails. -/
def parseLine (pid : Int) (input : String) : Option Parsed :=
  match strtok (stripNewline input) with
  | [] => none
  | command :: rest =>
    parseLoop pid rest
      { commandArray := [command], inputFile := none, outputFile := none, runBG := 0 }

/-- How the shell process leaves a piece of code that may not return. -/
inductive Cycle (α : Type)
  | done (a : α)
  | crash
  | forkFailed (s : Shell)
  | child (s : Shell) (e : ChildEnd)
  deriving DecidableEq, Repr

/-- `parseInput`: parse, then line 376. -/
def parseInput (s : Shell) (w : World) (input : String) : Cycle (Shell × Int) :=
  match parseLine w.pid input with
  | none => .crash
  | some p =>
    match runCommand s w p.commandArray p.inputFile p.outputFile p.runBG with
    | .forkFailed s1 => .forkFailed s1
    | .child s1 e => .child s1 e
    | .parent s1 exitStatus => .done (s1, exitStatus)

/-! ## `main` (lines 394-532) -/

/-- `strncmp(a, b, n) == 0` for strings without embedded terminators. -/
def strncmpEq (a b : String) (n : Nat) : Bool := a.data.take n == b.data.take n

/-- The globals and the two locals of `main` that live across prompt cycles. -/
structure Main where
  sh : Shell
  continueShell : Int
  exitStatus : Int
  deriving DecidableEq, Repr

/-- State at line 424, before the first cycle. -/
def Main.init : Main := { sh := Shell.init, continueShell := 1, exitStatus := 0 }

/-- Lines 431-440: the `exit` branch. -/
def exitBranch (m : Main) : Main :=
  let sh : Shell :=
    if m.sh.childBGPid ≠ 0 then
      { m.sh with calls := m.sh.calls ++ [Sys.kill m.sh.childFGPid 9] }
    else m.sh
  { m with sh := sh, continueShell := 0 }

/-- Lines 442-490: the `cd` branch. -/
def cdBranch (m : Main) (w : World) (input : String) : Main :=
  match strtok input with
  | _ :: token :: _ =>
    let dirName := expandPid w.pid (String.mk (token.data.take (token.data.length - 1)))
    let sh1 : Shell := { m.sh with calls := m.sh.calls ++ [Sys.chdir (some dirName)] }
    if w.chdirResult ≠ 0 then { m with sh := { sh1 with err := sh1.err ++ [dirName] } }
    else { m with sh := sh1 }
  | _ => { m with sh := { m.sh with calls := m.sh.calls ++ [Sys.chdir w.home] } }

/-- Lines 492-505: the `status` branch. -/
def statusBranch (m : Main) : Main :=
  if m.exitStatus = 0 ∨ m.exitStatus = 1 then
    { m with sh := { m.sh with out := m.sh.out ++ ["exit value " ++ toString m.exitStatus ++ "\n"] } }
  else
    { m with sh := { m.sh with
        out := m.sh.out ++ ["terminated by signal " ++ toString m.exitStatus ++ "\n"] } }

/-- Line 530. -/
def resetFlag (m : Main) : Main := { m with sh := { m.sh with controlCZUsed := 0 } }

/-- One pass through the body of the `while` loop (lines 426-530), `input`
being the buffer after `fgets`.  The prompt is written first. -/
def mainStep (m0 : Main) (w : World) (input : String) : Cycle Main :=
  let m : Main := { m0 with sh := { m0.sh with out := m0.sh.out ++ [": "] } }
  if strncmpEq input "exit" 4 then
    .done (resetFlag (exitBranch m))
  else if strncmpEq input "cd" 2 ∧ m.sh.controlCZUsed = 0 then
    .done (resetFlag (cdBranch m w input))
  else if strncmpEq input "status" 6 ∧ m.sh.controlCZUsed = 0 then
    .done (resetFlag (statusBranch m))
  else if strncmpEq input "#" 1 ∨ strncmpEq input "\n" 1 then
    .done m
  else if strncmpEq input "echo" 4 ∧ m.sh.controlCZUsed = 0 then
    .done (resetFlag
      { m with sh := { m.sh with out := m.sh.out ++ [String.mk (input.data.drop 4)] } })
  else if m.sh.controlCZUsed = 0 then
    match parseInput m.sh w input with
    | .done (sh, exitStatus) => .done (resetFlag { m with sh := sh, exitStatus := exitStatus })
    | .crash => .crash
    | .forkFailed s => .forkFailed s
    | .child s e => .child s e
  else
    .done (resetFlag m)

/-- The `while (continueShell)` loop over the lines read, one world per
cycle. -/
def mainLoop : Main → List (World × String) → Cycle Main
  | m, [] => .done m
  | m, (w, input) :: rest =>
    if m.continueShell ≠ 0 then
      match mainStep m w input with
      | .done m1 => mainLoop m1 rest
      | other => other
    else .done m

/-! ## Sessions, worlds and texts used in the statements -/

/-- The line printed when a command is put in the background. -/
def bgAnnouncement (pid : Int) : String := "background pid is " ++ toString pid ++ "\n"

/-- A session in foreground-only mode with one earlier background pid. -/
def foregroundOnlySession : Shell :=
  { Shell.init with forgroundOnly := 1, childBGPid := 40 }

/-- A world in which `fork` returns 41 and the child exits with code 0. -/
def quietWorld : World :=
  { pid := 7, home := some "/root", chdirResult := 0, spawnpid := 41, childStatus0 := 0,
    sourceFD0 := 0, targetFD0 := 0, waitChild := some (exitedWord 0), zombies := [],
    childEnv := { openSource := 3, dupSource := 0, openTarget := 4, dupTarget := 1,
                  execFails := false } }

/-- A world in which `fork` returns 41, the wait on the child stores `word`,
and no other child is finished. -/
def worldReaping (word : Option Nat) : World :=
  { quietWorld with waitChild := word }

/-- A world in which `fork` returns 42 and the new child is still running when
the parent polls it, `childStatus` holding 0 from whatever used the stack
before. -/
def stillRunningWorld : World :=
  { quietWorld with spawnpid := 42, waitChild := none, childStatus0 := 0 }

/-- A world in which `fork` returns 42 and the new child has already called
`exit(1)` when the parent polls it. -/
def alreadyDeadWorld : World :=
  { quietWorld with spawnpid := 42, waitChild := some (exitedWord 1) }

/-- The state of the calling process when `runCommand` ends. -/
def Dispatch.shell : Dispatch → Shell
  | .forkFailed s => s
  | .child s _ => s
  | .parent s _ => s

/-- A world in which the input file cannot be opened: `open` returns -1 in
the child, and the parent reaps a child that called `exit(1)`. -/
def noSuchFileWorld : World :=
  { quietWorld with waitChild := some (exitedWord 1),
                    childEnv := { quietWorld.childEnv with openSource := -1 } }

/-- The two pieces of text lines 243-251 write for one reaped child with pid
`x.1` and status word `x.2`: the pid, then the exit code or the signal
number. -/
def doneText (x : Int × Nat) : List String :=
  ["background pid " ++ toString x.1 ++ " is done: ",
   if WIFEXITED x.2 then "exit status " ++ toString (WEXITSTATUS x.2) ++ "\n"
   else "terminated by signal " ++ toString (WTERMSIG x.2) ++ "\n"]

/-- A world in which `fork` returns 1234 and the new child keeps running. -/
def longJobWorld : World :=
  { quietWorld with spawnpid := 1234, waitChild := none, childStatus0 := 0 }

/-- The initial session just after one delivery of the stop signal. -/
def interruptedSession : Main := { Main.init with sh := handle_SIGTSTP Main.init.sh }

/-! ## Strings that cannot be confused -/

theorem str_ne_of_first {a b : String} (h : a.data.head? ≠ b.data.head?) : a ≠ b := by
  intro e; exact h (by rw [e])

theorem str_ne_of_last {a b : String}
    (h : a.data.reverse.head? ≠ b.data.reverse.head?) : a ≠ b := by
  intro e; exact h (by rw [e])

theorem terminated_ne_announcement (x : String) (p : Int) :
    "terminated by signal " ++ x ++ "\n" ≠ bgAnnouncement p := by
  apply str_ne_of_first
  simp [bgAnnouncement, String.data_append]

theorem exitStatus_ne_announcement (x : String) (p : Int) :
    "exit status " ++ x ++ "\n" ≠ bgAnnouncement p := by
  apply str_ne_of_first
  simp [bgAnnouncement, String.data_append]

theorem done_ne_announcement (x : String) (p : Int) :
    "background pid " ++ x ++ " is done: " ≠ bgAnnouncement p := by
  apply str_ne_of_last
  simp [bgAnnouncement, String.data_append, List.reverse_append]

/-! ## Frame lemmas for the phases of `runCommand` -/

theorem exitedWord_spec (c : Nat) (h : c < 256) :
    WIFEXITED (exitedWord c) = true ∧ WEXITSTATUS (exitedWord c) = c := by
  unfold WIFEXITED WTERMSIG WEXITSTATUS exitedWord
  constructor
  · simp only [beq_iff_eq]; omega
  · omega

theorem signaledWord_spec (n : Nat) (h0 : 0 < n) (h : n < 128) :
    WIFEXITED (signaledWord n) = false ∧ WTERMSIG (signaledWord n) = n := by
  unfold WIFEXITED WTERMSIG signaledWord
  constructor
  · simp only [beq_eq_false_iff_ne, ne_eq]; omega
  · omega

theorem interpret_exited (s : Shell) (c : Nat) (h : c < 256) :
    interpret s (exitedWord c) = (s, (c : Int)) := by
  unfold interpret
  rw [if_pos (exitedWord_spec c h).1, (exitedWord_spec c h).2]

theorem interpret_out (s : Shell) (st : Nat) :
    ∃ extra, (interpret s st).1.out = s.out ++ extra ∧
      ∀ x ∈ extra, ∀ p : Int, x ≠ bgAnnouncement p := by
  unfold interpret
  split
  · exact ⟨[], by simp, by simp⟩
  · refine ⟨[_], rfl, ?_⟩
    intro x hx p
    simp only [List.mem_singleton] at hx
    subst hx
    exact terminated_ne_announcement _ p

theorem interpret_frame (s : Shell) (st : Nat) :
    (interpret s st).1.calls = s.calls ∧ (interpret s st).1.childBGPid = s.childBGPid ∧
    (interpret s st).1.childFGPid = s.childFGPid ∧
    (interpret s st).1.forgroundOnly = s.forgroundOnly ∧
    (interpret s st).1.controlCZUsed = s.controlCZUsed := by
  unfold interpret
  split <;> simp

theorem announce_out (s : Shell) (p : Int) (st : Nat) :
    ∃ extra, (announce s p st).out = s.out ++ extra ∧
      ∀ x ∈ extra, ∀ q : Int, x ≠ bgAnnouncement q := by
  unfold announce
  by_cases h : WIFEXITED st = true
  · refine ⟨[_, _], by simp [h]; exact ⟨rfl, rfl⟩, ?_⟩
    intro x hx q
    simp only [List.mem_cons, List.mem_singleton, List.not_mem_nil, or_false] at hx
    rcases hx with hx | hx
    · subst hx; exact done_ne_announcement _ q
    · subst hx; exact exitStatus_ne_announcement _ q
  · refine ⟨[_, _], by simp [h]; exact ⟨rfl, rfl⟩, ?_⟩
    intro x hx q
    simp only [List.mem_cons, List.mem_singleton, List.not_mem_nil, or_false] at hx
    rcases hx with hx | hx
    · subst hx; exact done_ne_announcement _ q
    · subst hx; exact terminated_ne_announcement _ q

theorem sweep_out (z : List (Int × Nat)) :
    ∀ s : Shell, ∃ extra, (sweep z s).1.out = s.out ++ extra ∧
      ∀ x ∈ extra, ∀ q : Int, x ≠ bgAnnouncement q := by
  induction z with
  | nil => intro s; exact ⟨[], by simp [sweep], by simp⟩
  | cons a rest ih =>
    intro s
    obtain ⟨p, st⟩ := a
    unfold sweep
    by_cases hp : p > 0
    · simp only [hp, if_true]
      obtain ⟨e1, h1, n1⟩ :=
        announce_out { s with calls := s.calls ++ [Sys.waitpid (-1) WNOHANG] } p st
      obtain ⟨e2, h2, n2⟩ :=
        ih (announce { s with calls := s.calls ++ [Sys.waitpid (-1) WNOHANG] } p st)
      refine ⟨e1 ++ e2, ?_, ?_⟩
      · rw [h2, h1, List.append_assoc]
      · intro x hx q
        rcases List.mem_append.mp hx with hx | hx
        · exact n1 x hx q
        · exact n2 x hx q
    · simp only [hp, if_false]
      exact ⟨[], by simp, by simp⟩

theorem closeFiles_frame (s : Shell) (w : World) :
    (closeFiles s w).out = s.out ∧ (closeFiles s w).childBGPid = s.childBGPid ∧
    (closeFiles s w).childFGPid = s.childFGPid ∧
    (closeFiles s w).forgroundOnly = s.forgroundOnly ∧
    (closeFiles s w).controlCZUsed = s.controlCZUsed := by
  unfold closeFiles
  split <;> split <;> simp

theorem announce_frame (s : Shell) (p : Int) (st : Nat) :
    (announce s p st).calls = s.calls ∧ (announce s p st).childBGPid = 0 ∧
    (announce s p st).childFGPid = s.childFGPid ∧
    (announce s p st).forgroundOnly = s.forgroundOnly ∧
    (announce s p st).controlCZUsed = s.controlCZUsed := by
  unfold announce
  split <;> simp

theorem sweep_calls (z : List (Int × Nat)) :
    ∀ s : Shell, ∃ rest, (sweep z s).1.calls = s.calls ++ rest := by
  induction z with
  | nil => intro s; exact ⟨_, rfl⟩
  | cons a tl ih =>
    intro s
    obtain ⟨p, st⟩ := a
    unfold sweep
    by_cases hp : p > 0
    · simp only [hp, if_true]
      obtain ⟨r, hr⟩ :=
        ih (announce { s with calls := s.calls ++ [Sys.waitpid (-1) WNOHANG] } p st)
      refine ⟨Sys.waitpid (-1) WNOHANG :: r, ?_⟩
      rw [hr, (announce_frame _ p st).1]
      simp
    · simp only [hp, if_false]
      exact ⟨_, rfl⟩

theorem closeFiles_calls (s : Shell) (w : World) :
    ∃ rest, (closeFiles s w).calls = s.calls ++ rest := by
  unfold closeFiles
  split <;> split
  · exact ⟨[Sys.close w.sourceFD0, Sys.close w.targetFD0], by simp⟩
  · exact ⟨[Sys.close w.sourceFD0], by simp⟩
  · exact ⟨[Sys.close w.targetFD0], by simp⟩
  · exact ⟨[], by simp⟩

theorem launch_foreground (s : Shell) (w : World) (runBG : Int)
    (h : ¬ (runBG ≠ 0 ∧ s.forgroundOnly = 0)) :
    launch s w runBG =
      ({ s with childFGPid := w.spawnpid, calls := s.calls ++ [Sys.waitpid w.spawnpid 0] },
       w.waitChild.getD w.childStatus0) := by
  unfold launch
  rw [if_neg h]

theorem launch_background (s : Shell) (w : World) (runBG : Int)
    (h : runBG ≠ 0 ∧ s.forgroundOnly = 0) :
    launch s w runBG =
      ({ s with childFGPid := 0, childBGPid := w.spawnpid,
                calls := s.calls ++ [Sys.waitpid w.spawnpid WNOHANG],
                out := s.out ++ ["background pid is " ++ toString w.spawnpid ++ "\n"] },
       w.waitChild.getD w.childStatus0) := by
  unfold launch
  rw [if_pos h]

theorem afterWait_out (s1 : Shell) (w : World) (st : Nat) :
    ∃ extra, (afterWait s1 w st).1.out = s1.out ++ extra ∧
      ∀ x ∈ extra, ∀ p : Int, x ≠ "background pid is " ++ toString p ++ "\n" := by
  unfold afterWait
  obtain ⟨e2, ho2, n2⟩ := interpret_out s1 st
  obtain ⟨e4, ho4, n4⟩ := sweep_out w.zombies (resetFG (interpret s1 st).1)
  refine ⟨e2 ++ e4, ?_, ?_⟩
  · have h3 : (resetFG (interpret s1 st).1).out = (interpret s1 st).1.out := rfl
    simp only [(closeFiles_frame _ w).1, ho4, h3, ho2, List.append_assoc]
  · intro x hx p
    rcases List.mem_append.mp hx with hx | hx
    · exact n2 x hx p
    · exact n4 x hx p

theorem afterWait_calls (s1 : Shell) (w : World) (st : Nat) :
    ∃ rest, (afterWait s1 w st).1.calls = s1.calls ++ rest := by
  unfold afterWait
  obtain ⟨r4, hc4⟩ := sweep_calls w.zombies (resetFG (interpret s1 st).1)
  obtain ⟨r5, hc5⟩ := closeFiles_calls (sweep w.zombies (resetFG (interpret s1 st).1)).1 w
  refine ⟨r4 ++ r5, ?_⟩
  have h3 : (resetFG (interpret s1 st).1).calls = (interpret s1 st).1.calls := rfl
  simp only [hc5, hc4, h3, (interpret_frame s1 st).1, List.append_assoc]

/-- In foreground-only mode (or without `&`) the whole parent branch blocks
on the new pid first and prints no background announcement. -/
theorem runCommandParent_foreground (s : Shell) (w : World) (runBG : Int)
    (h : ¬ (runBG ≠ 0 ∧ s.forgroundOnly = 0)) :
    (∃ rest, (runCommandParent s w runBG).1.calls
        = s.calls ++ Sys.waitpid w.spawnpid 0 :: rest) ∧
    (∃ extra, (runCommandParent s w runBG).1.out = s.out ++ extra ∧
        ∀ x ∈ extra, ∀ p : Int, x ≠ "background pid is " ++ toString p ++ "\n") := by
  unfold runCommandParent
  rw [launch_foreground s w runBG h]
  obtain ⟨rest, hc⟩ := afterWait_calls
    { s with childFGPid := w.spawnpid, calls := s.calls ++ [Sys.waitpid w.spawnpid 0] } w
    (w.waitChild.getD w.childStatus0)
  obtain ⟨extra, ho, hn⟩ := afterWait_out
    { s with childFGPid := w.spawnpid, calls := s.calls ++ [Sys.waitpid w.spawnpid 0] } w
    (w.waitChild.getD w.childStatus0)
  exact ⟨⟨rest, by rw [hc]; simp⟩, ⟨extra, ho, hn⟩⟩

/-! ## C1: the scheduling decision -/

/-- C1: in the parent branch of `runCommand` the launch is a background launch
(the new pid becomes `childBGPid`, "background pid is <pid>" is printed, the
wait on the child is `WNOHANG`) exactly when `runBG` is set and `forgroundOnly`
is zero; it is a foreground launch (the new pid becomes `childFGPid`, nothing is
printed, the wait on that pid blocks) exactly in the other case.  With
`forgroundOnly` set the whole dispatch starts with the blocking wait on the new
pid and none of the text it prints is a background announcement. -/
theorem C1_background_iff_flag_and_not_foregroundOnly (s : Shell) (w : World) (runBG : Int) :
    (((launch s w runBG).1.childBGPid = w.spawnpid ∧
      (launch s w runBG).1.out = s.out ++ ["background pid is " ++ toString w.spawnpid ++ "\n"] ∧
      (launch s w runBG).1.calls = s.calls ++ [Sys.waitpid w.spawnpid WNOHANG])
        ↔ (runBG ≠ 0 ∧ s.forgroundOnly = 0)) ∧
    (((launch s w runBG).1.childFGPid = w.spawnpid ∧
      (launch s w runBG).1.childBGPid = s.childBGPid ∧
      (launch s w runBG).1.out = s.out ∧
      (launch s w runBG).1.calls = s.calls ++ [Sys.waitpid w.spawnpid 0])
        ↔ ¬ (runBG ≠ 0 ∧ s.forgroundOnly = 0)) ∧
    (s.forgroundOnly ≠ 0 →
      (∃ rest, (runCommandParent s w runBG).1.calls
          = s.calls ++ Sys.waitpid w.spawnpid 0 :: rest) ∧
      (∃ extra, (runCommandParent s w runBG).1.out = s.out ++ extra ∧
          ∀ x ∈ extra, ∀ p : Int, x ≠ "background pid is " ++ toString p ++ "\n")) := by
  refine ⟨?_, ?_, ?_⟩
  · by_cases h : runBG ≠ 0 ∧ s.forgroundOnly = 0
    · rw [launch_background s w runBG h]
      simp [h]
    · rw [launch_foreground s w runBG h]
      simp [h, WNOHANG]
  · by_cases h : runBG ≠ 0 ∧ s.forgroundOnly = 0
    · rw [launch_background s w runBG h]
      simp [h, WNOHANG]
    · rw [launch_foreground s w runBG h]
      simp [h]
  · intro hf
    exact runCommandParent_foreground s w runBG (fun h => hf h.2)

/-- C1 (witness): a session in foreground-only mode, a command given with
`&`. -/
theorem C1_background_iff_flag_and_not_foregroundOnly_witness :
    foregroundOnlySession.forgroundOnly ≠ 0 ∧
    ((∃ rest, (runCommandParent foregroundOnlySession quietWorld 1).1.calls
        = foregroundOnlySession.calls ++ Sys.waitpid quietWorld.spawnpid 0 :: rest) ∧
     (∃ extra, (runCommandParent foregroundOnlySession quietWorld 1).1.out
        = foregroundOnlySession.out ++ extra ∧
        ∀ x ∈ extra, ∀ p : Int, x ≠ "background pid is " ++ toString p ++ "\n")) :=
  ⟨by decide,
   (C1_background_iff_flag_and_not_foregroundOnly foregroundOnlySession quietWorld 1).2.2
     (by decide)⟩

/-! ## C2: what `status` reports after a foreground command -/

/-- C2 (the code at a failing input): a foreground child that exits normally
with code 2 leaves `exitStatus = 2`, and `status` then prints
"terminated by signal 2"; a foreground child killed by signal 1 leaves
`exitStatus = 1`, and `status` then prints "exit value 1". -/
theorem C2_status_confuses_exit_code_and_signal :
    (WIFEXITED (exitedWord 2) = true ∧ WEXITSTATUS (exitedWord 2) = 2 ∧
      ∃ m, mainLoop Main.init
          [(worldReaping (some (exitedWord 2)), "ls nonexistentdir123\n"),
           (quietWorld, "status\n")] = .done m ∧
        m.exitStatus = 2 ∧
        m.sh.out = [": ", ": ", "terminated by signal 2\n"]) ∧
    (WIFEXITED (signaledWord 1) = false ∧ WTERMSIG (signaledWord 1) = 1 ∧
      ∃ m, mainLoop Main.init
          [(worldReaping (some (signaledWord 1)), "sleep 100\n"),
           (quietWorld, "status\n")] = .done m ∧
        m.exitStatus = 1 ∧
        m.sh.out = [": ", "terminated by signal 1\n", ": ", "exit value 1\n"]) := by
  refine ⟨⟨by decide, by decide, _, rfl, by decide, by decide⟩,
          ⟨by decide, by decide, _, rfl, by decide, by decide⟩⟩

/-! ## C3: a background launch and the last status -/

/-- C3 (the code at a failing input): after a foreground command that exited
with code 1, `status` prints "exit value 1"; with a background launch in
between it prints "exit value 0", because `runCommand` computes its return
value from `childStatus` on the background path too.  Likewise a background
child that is already dead when polled turns a last status of 0 into 1. -/
theorem C3_background_launch_overwrites_status :
    (∃ m, mainLoop Main.init
        [(worldReaping (some (exitedWord 1)), "false\n"), (quietWorld, "status\n")] = .done m ∧
      m.sh.out = [": ", ": ", "exit value 1\n"]) ∧
    (∃ m, mainLoop Main.init
        [(worldReaping (some (exitedWord 1)), "false\n"), (stillRunningWorld, "sleep 5 &\n"),
         (quietWorld, "status\n")] = .done m ∧
      m.sh.childBGPid = 42 ∧
      m.sh.out = [": ", ": ", "background pid is 42\n", ": ", "exit value 0\n"]) ∧
    (∃ m, mainLoop Main.init
        [(alreadyDeadWorld, "badcmd &\n"), (quietWorld, "status\n")] = .done m ∧
      Main.init.exitStatus = 0 ∧
      m.sh.out = [": ", "background pid is 42\n", ": ", "exit value 1\n"]) := by
  refine ⟨⟨_, rfl, by decide⟩, ⟨_, rfl, by decide, by decide⟩, ⟨_, rfl, by decide, by decide⟩⟩

/-- The sweep has no part in the value `runCommand` returns. -/
theorem afterWait_status (s1 : Shell) (w : World) (st : Nat) :
    (afterWait s1 w st).2 = (interpret s1 st).2 := rfl

/-! ## C4: an input file that cannot be opened -/

/-- C4 (counterexample): `cat < nofile` with an input file that cannot be
opened, in the initial session (last status 0).  The shell forks, the child is
the one that fails, and the last status becomes 1. -/
theorem C4_counterexample_fork_performed_status_changed :
    noSuchFileWorld.childEnv.openSource = -1 ∧
    parseLine noSuchFileWorld.pid "cat < nofile\n"
      = some { commandArray := ["cat"], inputFile := some "nofile", outputFile := none,
               runBG := 0 } ∧
    runCommandChild ["cat"] (some "nofile") none noSuchFileWorld.childEnv
      = .exit 1 "source open()" ∧
    Main.init.exitStatus = 0 ∧
    ∃ m, mainStep Main.init noSuchFileWorld "cat < nofile\n" = .done m ∧
      Sys.fork ∈ m.sh.calls ∧ m.exitStatus = 1 := by
  refine ⟨by decide, by decide, by decide, by decide, _, rfl, by decide, by decide⟩

/-- C4 (amended): when the input file cannot be opened, `runCommand` still
forks first; the child reports "source open()" and exits with status 1 without
executing the program; and when the parent waits for that child in the
foreground and reaps it, `runCommand` returns 1 to its caller. -/
theorem C4_unopenable_input_fails_in_child (s : Shell) (w : World) (command : List String)
    (path : String) (outputFile : Option String) (runBG : Int)
    (hopen : w.childEnv.openSource = -1) :
    (∃ rest, (runCommand s w command (some path) outputFile runBG).shell.calls
        = s.calls ++ Sys.fork :: rest) ∧
    runCommandChild command (some path) outputFile w.childEnv = .exit 1 "source open()" ∧
    (w.spawnpid ≠ -1 → w.spawnpid ≠ 0 → ¬ (runBG ≠ 0 ∧ s.forgroundOnly = 0) →
      w.waitChild = some (exitedWord 1) →
      ∃ s1, runCommand s w command (some path) outputFile runBG = .parent s1 1) := by
  refine ⟨?_, ?_, ?_⟩
  · unfold runCommand
    by_cases h1 : w.spawnpid = -1
    · simp only [h1, if_true]
      exact ⟨[], by simp [Dispatch.shell]⟩
    · by_cases h0 : w.spawnpid = 0
      · simp only [h1, h0, if_true, if_false]
        exact ⟨[], by simp [Dispatch.shell]⟩
      · simp only [h1, h0, if_false]
        by_cases hb : runBG ≠ 0 ∧ s.forgroundOnly = 0
        · obtain ⟨rest, hc⟩ := afterWait_calls
            (launch { s with calls := s.calls ++ [Sys.fork] } w runBG).1 w
            (launch { s with calls := s.calls ++ [Sys.fork] } w runBG).2
          refine ⟨Sys.waitpid w.spawnpid WNOHANG :: rest, ?_⟩
          simp only [Dispatch.shell, runCommandParent]
          rw [hc, launch_background { s with calls := s.calls ++ [Sys.fork] } w runBG hb]
          simp
        · obtain ⟨rest, hc⟩ := afterWait_calls
            (launch { s with calls := s.calls ++ [Sys.fork] } w runBG).1 w
            (launch { s with calls := s.calls ++ [Sys.fork] } w runBG).2
          refine ⟨Sys.waitpid w.spawnpid 0 :: rest, ?_⟩
          simp only [Dispatch.shell, runCommandParent]
          rw [hc, launch_foreground { s with calls := s.calls ++ [Sys.fork] } w runBG hb]
          simp
  · simp [runCommandChild, hopen]
  · intro h1 h0 hb hw
    have h2 : (runCommandParent { s with calls := s.calls ++ [Sys.fork] } w runBG).2 = 1 := by
      simp only [runCommandParent]
      rw [launch_foreground { s with calls := s.calls ++ [Sys.fork] } w runBG hb,
        afterWait_status, hw, Option.getD_some, interpret_exited _ 1 (by decide)]
      rfl
    refine ⟨(runCommandParent { s with calls := s.calls ++ [Sys.fork] } w runBG).1, ?_⟩
    unfold runCommand
    simp only [h1, h0, if_false, h2]

/-- C4 (witness): `cat < nofile` in the initial session. -/
theorem C4_unopenable_input_fails_in_child_witness :
    noSuchFileWorld.childEnv.openSource = -1 ∧
    runCommandChild ["cat"] (some "nofile") none noSuchFileWorld.childEnv
      = .exit 1 "source open()" ∧
    ∃ s1, runCommand Shell.init noSuchFileWorld ["cat"] (some "nofile") none 0
      = .parent s1 1 :=
  ⟨by decide,
   (C4_unopenable_input_fails_in_child Shell.init noSuchFileWorld ["cat"] "nofile" none 0
      (by decide)).2.1,
   (C4_unopenable_input_fails_in_child Shell.init noSuchFileWorld ["cat"] "nofile" none 0
      (by decide)).2.2 (by decide) (by decide) (by decide) (by decide)⟩

/-! ## C5: the background sweep -/

theorem announce_out_eq (s : Shell) (p : Int) (st : Nat) :
    (announce s p st).out = s.out ++ doneText (p, st) := by
  unfold announce doneText
  split <;> simp

theorem sweep_all (z : List (Int × Nat)) (hz : ∀ x ∈ z, x.1 > 0) :
    ∀ s : Shell,
      (sweep z s).2 = [] ∧
      (sweep z s).1.calls
        = s.calls ++ List.replicate (z.length + 1) (Sys.waitpid (-1) WNOHANG) ∧
      (sweep z s).1.out = s.out ++ (z.map doneText).flatten ∧
      (z ≠ [] → (sweep z s).1.childBGPid = 0) ∧
      (z = [] → (sweep z s).1.childBGPid = s.childBGPid) := by
  induction z with
  | nil => intro s; simp [sweep]
  | cons a tl ih =>
    intro s
    obtain ⟨p, st⟩ := a
    have hp : p > 0 := hz (p, st) (List.mem_cons_self _ _)
    have htl : ∀ x ∈ tl, x.1 > 0 := fun x hx => hz x (List.mem_cons_of_mem _ hx)
    obtain ⟨h1, h2, h3, h4, h5⟩ :=
      ih htl (announce { s with calls := s.calls ++ [Sys.waitpid (-1) WNOHANG] } p st)
    unfold sweep
    simp only [hp, if_true]
    refine ⟨h1, ?_, ?_, ?_, ?_⟩
    · rw [h2, (announce_frame _ p st).1]
      simp [List.replicate_succ]
    · rw [h3, announce_out_eq]
      simp
    · intro _
      by_cases ht : tl = []
      · rw [h5 ht]; exact (announce_frame _ p st).2.1
      · exact h4 ht
    · intro hc; exact absurd hc (by simp)

/-- C5 (counterexample): for a reaped child 50 that exited with code 0 the
sweep writes "background pid 50 is done: exit status 0", not "... exit value
0". -/
theorem C5_counterexample_exit_status_wording :
    WIFEXITED (exitedWord 0) = true ∧ WEXITSTATUS (exitedWord 0) = 0 ∧
    String.join (sweep [(50, exitedWord 0)] Shell.init).1.out
      = "background pid 50 is done: exit status 0\n" ∧
    String.join (sweep [(50, exitedWord 0)] Shell.init).1.out
      ≠ "background pid 50 is done: exit value 0\n" := by
  refine ⟨by decide, by decide, by decide, by decide⟩

/-- C5 (amended): the sweep at the end of a dispatch reaps every finished
child (it repeats `waitpid(-1, ..., WNOHANG)` until nothing is left, one call
more than there are finished children); for each reaped child it writes
"background pid p is done: " followed by "exit status c\n" when the child
exited normally with code c, or by "terminated by signal n\n" otherwise; and
after reaping at least one child `childBGPid` is 0.  The parent branch of
`runCommand` ends its output with exactly that text. -/
theorem C5_sweep_reaps_and_reports_every_finished_child
    (z : List (Int × Nat)) (hz : ∀ x ∈ z, x.1 > 0) (s : Shell) :
    (sweep z s).2 = [] ∧
    (sweep z s).1.calls
      = s.calls ++ List.replicate (z.length + 1) (Sys.waitpid (-1) WNOHANG) ∧
    (sweep z s).1.out = s.out ++ (z.map doneText).flatten ∧
    (z ≠ [] → (sweep z s).1.childBGPid = 0) ∧
    (∀ (w : World) (runBG : Int), w.zombies = z →
      (∃ before, (runCommandParent s w runBG).1.out = before ++ (z.map doneText).flatten) ∧
      (z ≠ [] → (runCommandParent s w runBG).1.childBGPid = 0)) ∧
    (∀ c, c < 256 → WIFEXITED (exitedWord c) = true ∧ WEXITSTATUS (exitedWord c) = c) ∧
    (∀ n, 0 < n → n < 128 →
      WIFEXITED (signaledWord n) = false ∧ WTERMSIG (signaledWord n) = n) := by
  obtain ⟨h1, h2, h3, h4, _⟩ := sweep_all z hz s
  refine ⟨h1, h2, h3, h4, ?_, exitedWord_spec, signaledWord_spec⟩
  intro w runBG hw
  unfold runCommandParent afterWait
  rw [hw]
  obtain ⟨_, _, g3, g4, _⟩ := sweep_all z hz
    (resetFG (interpret (launch s w runBG).1 (launch s w runBG).2).1)
  constructor
  · exact ⟨_, by rw [(closeFiles_frame _ w).1, g3]⟩
  · intro hne
    rw [(closeFiles_frame _ w).2.1]
    exact g4 hne

/-- C5 (witness): two finished children, one exited with code 0, one killed
by signal 15. -/
theorem C5_sweep_reaps_and_reports_every_finished_child_witness :
    (sweep [(50, exitedWord 0), (51, signaledWord 15)] Shell.init).2 = [] ∧
    (sweep [(50, exitedWord 0), (51, signaledWord 15)] Shell.init).1.out
      = ["background pid 50 is done: ", "exit status 0\n",
         "background pid 51 is done: ", "terminated by signal 15\n"] ∧
    (sweep [(50, exitedWord 0), (51, signaledWord 15)] Shell.init).1.childBGPid = 0 := by
  have h := C5_sweep_reaps_and_reports_every_finished_child
    [(50, exitedWord 0), (51, signaledWord 15)] (by decide) Shell.init
  exact ⟨h.1, by rw [h.2.2.1]; decide, h.2.2.2.1 (by decide)⟩

/-! ## C6: the `exit` built-in -/

/-- C6 (the code at a failing input): after `sleep 100 &` has left 1234 as the
recorded background pid, `exit` issues `kill(0, 9)`, the value of `childFGPid`,
and never `kill(1234, 9)`. -/
theorem C6_exit_kills_foreground_pid_variable :
    ∃ m1 m2,
      mainStep Main.init longJobWorld "sleep 100 &\n" = .done m1 ∧
      m1.sh.childBGPid = 1234 ∧ m1.sh.childFGPid = 0 ∧
      mainStep m1 quietWorld "exit\n" = .done m2 ∧
      m2.continueShell = 0 ∧
      m2.sh.calls = m1.sh.calls ++ [Sys.kill 0 9] ∧
      Sys.kill 1234 9 ∉ m2.sh.calls := by
  refine ⟨_, _, rfl, by decide, by decide, rfl, by decide, by decide, by decide⟩

/-- The `exit` branch, whatever the state: the only signal it sends goes to
`childFGPid`. -/
theorem exitBranch_calls (m : Main) (h : m.sh.childBGPid ≠ 0) :
    (exitBranch m).sh.calls = m.sh.calls ++ [Sys.kill m.sh.childFGPid 9] := by
  unfold exitBranch
  rw [if_pos h]

/-! ## The stop-signal handler, case by case -/

theorem write_entering :
    write "\nEntering foreground-only mode (& is now ignored)\n" 50
      = "\nEntering foreground-only mode (& is now ignored)\n" := by decide

theorem write_exiting :
    write "\nExiting foreground-only mode\n" 30 = "\nExiting foreground-only mode\n" := by
  decide

theorem handle_SIGTSTP_enter (t : Shell) (ht : t.forgroundOnly = 0) :
    (handle_SIGTSTP t).forgroundOnly = 1 ∧
    (handle_SIGTSTP t).out
      = t.out ++ ["\nEntering foreground-only mode (& is now ignored)\n"] := by
  unfold handle_SIGTSTP
  simp [ht, write_entering]

theorem handle_SIGTSTP_leave (t : Shell) (ht : t.forgroundOnly ≠ 0) :
    (handle_SIGTSTP t).forgroundOnly = 0 ∧
    (handle_SIGTSTP t).out = t.out ++ ["\nExiting foreground-only mode\n"] := by
  unfold handle_SIGTSTP
  simp [ht, write_exiting]

theorem handle_SIGTSTP_frame (t : Shell) :
    (handle_SIGTSTP t).controlCZUsed = 1 ∧
    (handle_SIGTSTP t).childFGPid = t.childFGPid ∧
    (handle_SIGTSTP t).childBGPid = t.childBGPid ∧
    (handle_SIGTSTP t).calls = t.calls ∧
    (handle_SIGTSTP t).err = t.err := by
  unfold handle_SIGTSTP
  split <;> simp

/-! ## C7: the stop-signal handler -/

/-- C7: one delivery of `handle_SIGTSTP` turns foreground-only mode on when it
was off (writing the "Entering" notice) and off when it was on (writing the
"Exiting" notice), sets `controlCZUsed`, and leaves both pids, the system calls
and stderr as they were.  Two deliveries give back the original mode.  Starting
with the mode off, a command with `&` is waited for in the foreground (nothing
printed) after one delivery and is launched in the background, with its
announcement, after two. -/
theorem C7_stop_signal_toggles_foreground_only (s : Shell) :
    ((handle_SIGTSTP s).forgroundOnly ≠ 0 ↔ s.forgroundOnly = 0) ∧
    (s.forgroundOnly = 0 →
      (handle_SIGTSTP s).forgroundOnly = 1 ∧
      (handle_SIGTSTP s).out
        = s.out ++ ["\nEntering foreground-only mode (& is now ignored)\n"]) ∧
    (s.forgroundOnly ≠ 0 →
      (handle_SIGTSTP s).forgroundOnly = 0 ∧
      (handle_SIGTSTP s).out = s.out ++ ["\nExiting foreground-only mode\n"]) ∧
    (handle_SIGTSTP s).controlCZUsed = 1 ∧
    (handle_SIGTSTP s).childFGPid = s.childFGPid ∧
    (handle_SIGTSTP s).childBGPid = s.childBGPid ∧
    (handle_SIGTSTP s).calls = s.calls ∧
    (handle_SIGTSTP s).err = s.err ∧
    ((handle_SIGTSTP (handle_SIGTSTP s)).forgroundOnly ≠ 0 ↔ s.forgroundOnly ≠ 0) ∧
    (s.forgroundOnly = 0 ∨ s.forgroundOnly = 1 →
      (handle_SIGTSTP (handle_SIGTSTP s)).forgroundOnly = s.forgroundOnly) ∧
    (∀ (w : World) (runBG : Int), runBG ≠ 0 → s.forgroundOnly = 0 →
      ((launch (handle_SIGTSTP s) w runBG).1.childFGPid = w.spawnpid ∧
       (launch (handle_SIGTSTP s) w runBG).1.out = (handle_SIGTSTP s).out ∧
       (launch (handle_SIGTSTP s) w runBG).1.calls
         = (handle_SIGTSTP s).calls ++ [Sys.waitpid w.spawnpid 0]) ∧
      ((launch (handle_SIGTSTP (handle_SIGTSTP s)) w runBG).1.childBGPid = w.spawnpid ∧
       (launch (handle_SIGTSTP (handle_SIGTSTP s)) w runBG).1.out
         = (handle_SIGTSTP (handle_SIGTSTP s)).out
            ++ ["background pid is " ++ toString w.spawnpid ++ "\n"] ∧
       (launch (handle_SIGTSTP (handle_SIGTSTP s)) w runBG).1.calls
         = (handle_SIGTSTP (handle_SIGTSTP s)).calls
            ++ [Sys.waitpid w.spawnpid WNOHANG])) := by
  have hon := handle_SIGTSTP_enter
  have hoff := handle_SIGTSTP_leave
  have hfr := handle_SIGTSTP_frame
  refine ⟨?_, hon s, hoff s, (hfr s).1, (hfr s).2.1, (hfr s).2.2.1, (hfr s).2.2.2.1,
    (hfr s).2.2.2.2, ?_, ?_, ?_⟩
  · by_cases h : s.forgroundOnly = 0
    · simp [h, (hon s h).1]
    · simp [h, (hoff s h).1]
  · by_cases h : s.forgroundOnly = 0
    · have h1 := (hon s h).1
      have h2 := (hoff (handle_SIGTSTP s) (by rw [h1]; decide)).1
      simp [h, h2]
    · have h1 := (hoff s h).1
      have h2 := (hon (handle_SIGTSTP s) h1).1
      simp [h, h2]
  · intro h
    rcases h with h | h
    · have h1 := (hon s h).1
      rw [(hoff (handle_SIGTSTP s) (by rw [h1]; decide)).1, h]
    · have h1 := (hoff s (by rw [h]; decide)).1
      rw [(hon (handle_SIGTSTP s) h1).1, h]
  · intro w runBG hbg h
    have h1 := (hon s h).1
    have h2 := (hoff (handle_SIGTSTP s) (by rw [h1]; decide)).1
    constructor
    · rw [launch_foreground (handle_SIGTSTP s) w runBG (by rw [h1]; simp)]
      exact ⟨rfl, rfl, rfl⟩
    · rw [launch_background (handle_SIGTSTP (handle_SIGTSTP s)) w runBG ⟨hbg, h2⟩]
      exact ⟨rfl, rfl, rfl⟩

/-- C7 (witness): the initial session is in normal mode, so the last two
parts apply to it. -/
theorem C7_stop_signal_toggles_foreground_only_witness :
    Shell.init.forgroundOnly = 0 ∧
    ((launch (handle_SIGTSTP Shell.init) quietWorld 1).1.childFGPid = quietWorld.spawnpid ∧
     (launch (handle_SIGTSTP Shell.init) quietWorld 1).1.out
       = (handle_SIGTSTP Shell.init).out ∧
     (launch (handle_SIGTSTP Shell.init) quietWorld 1).1.calls
       = (handle_SIGTSTP Shell.init).calls ++ [Sys.waitpid quietWorld.spawnpid 0]) ∧
    (handle_SIGTSTP (handle_SIGTSTP Shell.init)).forgroundOnly = 0 :=
  ⟨by decide,
   ((C7_stop_signal_toggles_foreground_only Shell.init).2.2.2.2.2.2.2.2.2.2
      quietWorld 1 (by decide) (by decide)).1,
   (C7_stop_signal_toggles_foreground_only Shell.init).2.2.2.2.2.2.2.2.2.1
      (Or.inl (by decide))⟩


/-! ## C8: the argument vector of the executed program -/

/-- C8 (the code at a failing input): `ls -a -l -h` is parsed into four
argument strings, but the vector handed to `execvp` has the three slots of
`newargv` only, so `-h` is dropped; a vector of three strings holds no
terminating `NULL` either.  `newargv` has three slots whatever the command. -/
theorem C8_argv_has_three_slots :
    parseLine quietWorld.pid "ls -a -l -h\n"
      = some { commandArray := ["ls", "-a", "-l", "-h"], inputFile := none,
               outputFile := none, runBG := 0 } ∧
    runCommandChild ["ls", "-a", "-l", "-h"] none none quietWorld.childEnv
      = .exec (some "ls") [some "ls", some "-a", some "-l"] none none ∧
    some "-h" ∉ newargv ["ls", "-a", "-l", "-h"] ∧
    none ∉ newargv ["ls", "-a", "-l", "-h"] ∧
    (∀ command : List String, (newargv command).length = 3) := by
  refine ⟨by decide, by decide, by decide, by decide, fun _ => rfl⟩

/-! ## Where the expansion of `$$` is right -/

theorem strstrDollars_suffix (pre : List Char) : strstrDollars (pre ++ ['$', '$']) = true := by
  induction pre with
  | nil => simp [strstrDollars]
  | cons a tl ih =>
    cases tl with
    | nil =>
      simp only [List.cons_append, List.nil_append, strstrDollars]
      split <;> simp [strstrDollars]
    | cons b tl2 =>
      simp only [List.cons_append, strstrDollars]
      split
      · rfl
      · simpa using ih

/-- A name that ends in `$$` has exactly those two characters replaced. -/
theorem expandPid_suffix (pid : Int) (pre : List Char) :
    expandPid pid (String.mk (pre ++ ['$', '$'])) = String.mk (pre ++ (toString pid).data) := by
  unfold expandPid
  simp [strstrDollars_suffix]

/-! ## C9: expansion of `$$` -/

/-- C9 (the code at a failing input): with shell pid 1234 the token `$$bar` is
stored as `$$b1234` (its first three characters, then the pid), not as
`1234bar`; `a$$b` is stored as `a$1234`.  A token that ends in `$$` is stored
as the claim says: `foo$$` becomes `foo1234`. -/
theorem C9_expansion_cuts_last_two_characters :
    parseLine 1234 "ls $$bar\n"
      = some { commandArray := ["ls", "$$b1234"], inputFile := none, outputFile := none,
               runBG := 0 } ∧
    expandPid 1234 "$$bar" = "$$b1234" ∧
    expandPid 1234 "$$bar" ≠ "1234bar" ∧
    expandPid 1234 "a$$b" = "a$1234" ∧
    expandPid 1234 "foo$$" = "foo1234" ∧
    expandPid 1234 "plain" = "plain" := by
  refine ⟨by decide, by decide, by decide, by decide, by decide, by decide⟩

/-! ## Cycles that do clear `controlCZUsed` -/

theorem resetFlag_flag (m : Main) : (resetFlag m).sh.controlCZUsed = 0 := rfl

/-- Every cycle that ends and did not read a blank or comment line leaves the
flag at 0. -/
theorem mainStep_clears_flag (m : Main) (w : World) (input : String) (m1 : Main)
    (hline : ¬ (strncmpEq input "#" 1 = true ∨ strncmpEq input "\n" 1 = true))
    (h : mainStep m w input = .done m1) : m1.sh.controlCZUsed = 0 := by
  unfold mainStep at h
  simp only [hline, if_false] at h
  split at h
  · cases h; exact resetFlag_flag _
  · split at h
    · cases h; exact resetFlag_flag _
    · split at h
      · cases h; exact resetFlag_flag _
      · split at h
        · cases h; exact resetFlag_flag _
        · split at h
          · split at h
            · cases h; exact resetFlag_flag _
            · cases h
            · cases h
            · cases h
          · cases h; exact resetFlag_flag _

/-! ## C10: clearing `controlCZUsed` -/

/-- C10 (the code at a failing input): with `controlCZUsed` set by a signal,
a cycle that reads a comment line (or a blank line) ends at the `continue` of
line 510 with the flag still 1 and the shell still running; the `status`
typed on the next prompt is then skipped, where an uninterrupted session
prints "exit value 0". -/
theorem C10_comment_line_leaves_flag_set :
    interruptedSession.sh.controlCZUsed = 1 ∧
    (∃ m1 m2,
      mainStep interruptedSession quietWorld "# note\n" = .done m1 ∧
      m1.continueShell ≠ 0 ∧ m1.sh.controlCZUsed = 1 ∧
      mainStep m1 quietWorld "status\n" = .done m2 ∧
      m2.sh.out = m1.sh.out ++ [": "]) ∧
    (∃ m1,
      mainStep interruptedSession quietWorld "\n" = .done m1 ∧
      m1.continueShell ≠ 0 ∧ m1.sh.controlCZUsed = 1) ∧
    (∃ m, mainLoop Main.init [(quietWorld, "# note\n"), (quietWorld, "status\n")] = .done m ∧
      m.sh.out = [": ", ": ", "exit value 0\n"]) := by
  refine ⟨by decide, ⟨_, _, rfl, by decide, by decide, rfl, by decide⟩,
    ⟨_, rfl, by decide, by decide⟩, ⟨_, rfl, by decide⟩⟩

end Smallsh
